import Mathlib

/-!
Verification of the lineage read-back checker in `om_column_lineage_demo.py`.

The checker works over dynamically-typed Python values (JSON-style dicts and
lists, pydantic-style objects, strings, `None`).  We embed the fragment of
Python's value universe that the checker touches as the inductive `PyVal`,
together with the Python primitives the code uses: truthiness, `or`,
`dict.get`, `getattr` with a default, iteration, `+` on sequences, and
`str()`.  Operations that can raise in Python (`+` on incompatible values,
iterating a non-iterable, calling `.get` on a non-dict) return
`Except PyErr`; everything else is total, as in Python.

Conventions of the embedding:
* dict keys and object attribute names are strings (the code only ever uses
  string keys); a dict is an association list with distinct keys, looked up
  first-match;
* `pyRepr` follows Python's `repr` for `None`, strings, lists and dicts
  (string escaping is approximated: quotes inside strings are not escaped;
  no claim evaluates `repr` on such a string); an object's `repr` is
  summarised by a placeholder, as it is type-dependent in Python.
-/

/-- Dynamically-typed Python values handled by the lineage checker: `None`,
strings, lists, dicts (string keys) and attribute-carrying objects
(pydantic models). -/
inductive PyVal where
  | none : PyVal
  | str (s : String) : PyVal
  | list (xs : List PyVal) : PyVal
  | dict (fields : List (String × PyVal)) : PyVal
  | obj (attrs : List (String × PyVal)) : PyVal

/-- Python errors the checker's helpers can raise. -/
inductive PyErr where
  | typeError : PyErr
  | attributeError : PyErr
deriving DecidableEq, Repr

instance {ε α : Type} [DecidableEq ε] [DecidableEq α] : DecidableEq (Except ε α) := fun a b =>
  match a, b with
  | .error e, .error f => decidable_of_iff (e = f) (by simp)
  | .ok x, .ok y => decidable_of_iff (x = y) (by simp)
  | .error _, .ok _ => isFalse (by simp)
  | .ok _, .error _ => isFalse (by simp)

/-- Python truthiness: `None`, empty strings and empty collections are
falsy; plain objects are truthy. -/
def pyTruthy : PyVal → Bool
  | .none => false
  | .str s => !(s == "")
  | .list xs => !xs.isEmpty
  | .dict fs => !fs.isEmpty
  | .obj _ => true

/-- Python `a or b`: returns `a` when truthy, else `b`. -/
def pyOr (a b : PyVal) : PyVal :=
  if pyTruthy a then a else b

/-- Python `x is None` (only the `None` singleton is identical to `None`). -/
def isNone : PyVal → Bool
  | .none => true
  | _ => false

/-- Python `d.get(k)` for a dict given as its field list: the value at the
first occurrence of the key, or `None` when absent. -/
def dictGet (fs : List (String × PyVal)) (k : String) : PyVal :=
  (fs.lookup k).getD .none

/-- Python `k in d` for a dict given as its field list. -/
def dictContains (fs : List (String × PyVal)) (k : String) : Bool :=
  (fs.lookup k).isSome

/-- Python `getattr(v, name, default)`: attribute lookup on objects; any
other value (including dicts, which carry no such attributes) yields the
default.  Never raises. -/
def pyGetattr (v : PyVal) (name : String) (default : PyVal) : PyVal :=
  match v with
  | .obj attrs => (attrs.lookup name).getD default
  | _ => default

mutual

/-- Python `repr`.  Strings are shown quoted (escaping of embedded quotes is
approximated away), lists and dicts recursively; an object's repr is
type-dependent in Python and summarised by a placeholder. -/
def pyRepr : PyVal → String
  | .none => "None"
  | .str s => "\x27" ++ s ++ "\x27"
  | .list xs => "[" ++ pyReprElems xs ++ "]"
  | .dict fs => "\x7b" ++ pyReprFields fs ++ "\x7d"
  | .obj _ => "<object>"

/-- Comma-separated `repr` of list elements. -/
def pyReprElems : List PyVal → String
  | [] => ""
  | [x] => pyRepr x
  | x :: xs => pyRepr x ++ ", " ++ pyReprElems xs

/-- Comma-separated `repr` of dict entries. -/
def pyReprFields : List (String × PyVal) → String
  | [] => ""
  | [(k, v)] => "\x27" ++ k ++ "\x27: " ++ pyRepr v
  | (k, v) :: fs => "\x27" ++ k ++ "\x27: " ++ pyRepr v ++ ", " ++ pyReprFields fs

end

/-- Python `str()`: the string itself for strings, `repr` otherwise
(`str(None) = "None"`). -/
def pyStr : PyVal → String
  | .str s => s
  | v => pyRepr v

/-- Python iteration, `list(x)` / `for e in x`: lists yield their elements,
strings their one-character substrings, dicts their keys; `None` and plain
objects are not iterable and raise `TypeError`. -/
def pyIterList : PyVal → Except PyErr (List PyVal)
  | .list xs => .ok xs
  | .str s => .ok (s.data.map (fun c => .str (String.singleton c)))
  | .dict fs => .ok (fs.map (fun p => .str p.1))
  | _ => .error .typeError

/-- Python `a + b`: concatenation of two lists or two strings; any other
combination raises `TypeError`. -/
def pyAdd : PyVal → PyVal → Except PyErr PyVal
  | .list a, .list b => .ok (.list (a ++ b))
  | .str a, .str b => .ok (.str (a ++ b))
  | _, _ => .error .typeError

/-- Embedding of `_iter_edges` (om_column_lineage_demo.py:144-165): return
all edges from a lineage graph, supporting `\x7bedges: [...]\x7d` and
`\x7bupstreamEdges: [...], downstreamEdges: [...]\x7d` shapes, in both dict
and object form.  Returns the iterable value the Python function returns;
the dict shape concatenates with `+`, the object shape with
`list(...) + list(...)`, either of which can raise on non-sequence field
values. -/
def iterEdges : PyVal → Except PyErr PyVal
  | .none => .ok (.list [])
  | .dict fs =>
      if dictContains fs "edges" && !isNone (dictGet fs "edges") then
        .ok (pyOr (dictGet fs "edges") (.list []))
      else
        pyAdd (pyOr (dictGet fs "upstreamEdges") (.list []))
              (pyOr (dictGet fs "downstreamEdges") (.list []))
  | g =>
      match pyGetattr g "edges" .none with
      | .none =>
          match pyIterList (pyOr (pyGetattr g "upstreamEdges" .none) (.list [])),
                pyIterList (pyOr (pyGetattr g "downstreamEdges" .none) (.list [])) with
          | .ok up, .ok down => .ok (.list (up ++ down))
          | .error e, _ => .error e
          | _, .error e => .error e
      | edges => .ok edges

/-- Embedding of `_edge_from_to_ids` (om_column_lineage_demo.py:168-190):
extract `(str(fromEntity-id), str(toEntity-id))` from an edge, supporting
flat identifiers and nested `\x7bid: ...\x7d` references, in dict and
object form.  Total: absent fields pass `None` through `str`. -/
def edgeFromToIds (edge : PyVal) : String × String :=
  match edge with
  | .dict fs =>
      let frmRaw := dictGet fs "fromEntity"
      let toRaw := dictGet fs "toEntity"
      let frm := match frmRaw with
        | .dict g => dictGet g "id"
        | v => v
      let toV := match toRaw with
        | .dict g => dictGet g "id"
        | v => v
      (pyStr frm, pyStr toV)
  | _ =>
      let frmRaw := pyGetattr edge "fromEntity" .none
      let toRaw := pyGetattr edge "toEntity" .none
      let frm := pyGetattr frmRaw "id" frmRaw
      let toV := pyGetattr toRaw "id" toRaw
      (pyStr frm, pyStr toV)

/-- The edge-matching test of `verify_lineage`'s scan loop
(om_column_lineage_demo.py:265-269): the extracted identity equals the
requested `(source-id, target-id)`. -/
def edgeMatches (sourceId targetId : String) (edge : PyVal) : Bool :=
  let p := edgeFromToIds edge
  p.1 == sourceId && p.2 == targetId

/-- The per-mapping body of `_extract_columns_lineage_pairs`'s dict branch
(om_column_lineage_demo.py:202-206): `item.get("toColumn")` (raising
`AttributeError` on a non-dict item), then one pair per truthy
`fromColumns` element paired with a truthy `toColumn`. -/
def itemPairsDict (item : PyVal) : Except PyErr (Finset (String × String)) :=
  match item with
  | .dict gs =>
      let toCol := dictGet gs "toColumn"
      match pyIterList (pyOr (dictGet gs "fromColumns") (.list [])) with
      | .error e => .error e
      | .ok froms =>
          .ok (((froms.filter (fun f => pyTruthy f && pyTruthy toCol)).map
                  (fun f => (pyStr f, pyStr toCol))).toFinset)
  | _ => .error .attributeError

/-- The per-mapping body of `_extract_columns_lineage_pairs`'s object branch
(om_column_lineage_demo.py:213-217): `getattr` probing never raises; only
iterating a non-iterable `fromColumns` value can. -/
def itemPairsObj (item : PyVal) : Except PyErr (Finset (String × String)) :=
  let toCol := pyGetattr item "toColumn" .none
  match pyIterList (pyOr (pyGetattr item "fromColumns" .none) (.list [])) with
  | .error e => .error e
  | .ok froms =>
      .ok (((froms.filter (fun f => pyTruthy f && pyTruthy toCol)).map
              (fun f => (pyStr f, pyStr toCol))).toFinset)

/-- Accumulation of the `pairs` set over the `columnsLineage` loop: union of
the per-mapping pair sets, stopping at the first mapping that raises. -/
def collectPairs (f : PyVal → Except PyErr (Finset (String × String))) :
    List PyVal → Except PyErr (Finset (String × String))
  | [] => .ok ∅
  | i :: rest =>
      match f i with
      | .error e => .error e
      | .ok p =>
          match collectPairs f rest with
          | .error e => .error e
          | .ok q => .ok (p ∪ q)

/-- Embedding of `_extract_columns_lineage_pairs`
(om_column_lineage_demo.py:193-219): the set of
`(from-column-FQN, to-column-FQN)` pairs recorded in
`edge.lineageDetails.columnsLineage`.  Dict branch:
`(edge.get("lineageDetails") or \x7b\x7d).get("columnsLineage") or []`,
where `.get` on a truthy non-dict raises `AttributeError`.  Object branch:
`getattr` probing with a falsy-details early return. -/
def extractPairs (edge : PyVal) : Except PyErr (Finset (String × String)) :=
  match edge with
  | .dict fs =>
      match pyOr (dictGet fs "lineageDetails") (.dict []) with
      | .dict ls =>
          match pyIterList (pyOr (dictGet ls "columnsLineage") (.list [])) with
          | .error e => .error e
          | .ok items => collectPairs itemPairsDict items
      | _ => .error .attributeError
  | e =>
      let ld := pyGetattr e "lineageDetails" .none
      if pyTruthy ld then
        match pyIterList (pyOr (pyGetattr ld "columnsLineage" .none) (.list [])) with
        | .error er => .error er
        | .ok items => collectPairs itemPairsObj items
      else .ok ∅

/-- Diagnostics of one verification run: the `missing = expected - actual`
and `extra = actual - expected` set differences that `verify_lineage`
computes and prints (om_column_lineage_demo.py:279-294). -/
structure VerifyReport where
  missing : Finset (String × String)
  extra : Finset (String × String)
deriving DecidableEq

/-- Failure outcomes of `verify_lineage`: the edge-not-found assertion, the
lineage-incomplete assertion (carrying the printed diagnostics), or an
underlying Python error escaping from a helper. -/
inductive VerifyError where
  | edgeNotFound : VerifyError
  | lineageIncomplete (report : VerifyReport) : VerifyError
  | pyError (e : PyErr) : VerifyError
deriving DecidableEq

/-- The tail of `verify_lineage` after an edge matched
(om_column_lineage_demo.py:277-302): extract the actual pairs, compute
`missing` and `extra` by set difference, raise lineage-incomplete exactly
when `missing` is non-empty; `extra` is diagnostic only. -/
def checkEdge (edge : PyVal) (expected : Finset (String × String)) :
    Except VerifyError VerifyReport :=
  match extractPairs edge with
  | .error e => .error (.pyError e)
  | .ok actual =>
      let missing := expected \ actual
      let extra := actual \ expected
      if missing = ∅ then .ok ⟨missing, extra⟩
      else .error (.lineageIncomplete ⟨missing, extra⟩)

/-- The edge sequence the `for edge in _iter_edges(lineage_graph)` loop of
`verify_lineage` runs over: the value `_iter_edges` returns, iterated. -/
def normalizedEdges (g : PyVal) : Except PyErr (List PyVal) :=
  match iterEdges g with
  | .error e => .error e
  | .ok v => pyIterList v

/-- Embedding of `verify_lineage` (om_column_lineage_demo.py:238-302),
with the externally-fetched lineage graph and the already-stringified
source/target entity ids as inputs: scan the normalized edges in order for
the first whose identity matches, raise edge-not-found when none does,
otherwise diff the matched edge's column pairs against the expected set.
On success the returned report carries the informational `extra` set. -/
def verifyLineage (sourceId targetId : String) (graph : PyVal)
    (expected : Finset (String × String)) : Except VerifyError VerifyReport :=
  match normalizedEdges graph with
  | .error e => .error (.pyError e)
  | .ok edges =>
      match edges.find? (edgeMatches sourceId targetId) with
      | .none => .error .edgeNotFound
      | .some e => checkEdge e expected

/-- Failure modes of `read_pat_token`: `FileNotFoundError` when the file
does not exist, `ValueError` when its stripped content is empty. -/
inductive TokenErr where
  | fileNotFound : TokenErr
  | emptyToken : TokenErr
deriving DecidableEq, Repr

/-- Python `str.strip()` with no argument: remove leading and trailing
whitespace (Python also strips some Unicode space characters beyond
`Char.isWhitespace`; the tokens at issue are ASCII). -/
def pyStrip (s : String) : String :=
  ⟨((s.data.dropWhile Char.isWhitespace).reverse.dropWhile Char.isWhitespace).reverse⟩

/-- Embedding of `read_pat_token` (om_column_lineage_demo.py:91-100).  The
filesystem is abstracted as the token file's content when it exists
(`Option String`). -/
def readPatToken : Option String → Except TokenErr String
  | Option.none => .error .fileNotFound
  | Option.some content =>
      let token := pyStrip content
      if token = "" then .error .emptyToken else .ok token

/-- Embedding of the control flow of `main`
(om_column_lineage_demo.py:309-313, 424-426): the try-block reads the
token first; only on success does control reach the catalog client, which
is abstracted as an oracle from the token to an exit code and the list of
catalog interactions performed.  A token error is caught by the except
clause: exit code 1 with no catalog interaction attempted. -/
def mainModel (fs : Option String) (catalog : String → Nat × List String) :
    Nat × List String :=
  match readPatToken fs with
  | .error _ => (1, [])
  | .ok token => catalog token

/-- Edge-list fields of a lineage graph that conform to the response data
model: absent (`None`) or a list. -/
def edgeFieldOk : PyVal → Bool
  | .none => true
  | .list _ => true
  | _ => false

/-- Lineage graphs conforming to the response data model: `None`, or a
dict/object whose `edges`, `upstreamEdges` and `downstreamEdges` fields are
each absent, null or lists (values without those fields trivially
conform). -/
def wfGraph : PyVal → Bool
  | .dict fs =>
      edgeFieldOk (dictGet fs "edges") &&
      edgeFieldOk (dictGet fs "upstreamEdges") &&
      edgeFieldOk (dictGet fs "downstreamEdges")
  | .obj as =>
      edgeFieldOk (pyGetattr (.obj as) "edges" .none) &&
      edgeFieldOk (pyGetattr (.obj as) "upstreamEdges" .none) &&
      edgeFieldOk (pyGetattr (.obj as) "downstreamEdges" .none)
  | _ => true

/-- A `fromColumns` value the per-mapping loop can consume after the
`or []` default: anything but a plain object (always truthy, not
iterable). -/
def fromColsOk : PyVal → Bool
  | .obj _ => false
  | _ => true

/-- Column-mapping entries conforming to the data model in dict form: a
dict whose `fromColumns` is consumable. -/
def wfItemDict : PyVal → Bool
  | .dict gs => fromColsOk (dictGet gs "fromColumns")
  | _ => false

/-- Edges conforming to the lineage data model for pair extraction:
`lineageDetails` absent, falsy, or a dict/object; `columnsLineage` absent,
falsy, or a list of conforming entries.  Non-dict edges without a truthy
`lineageDetails` attribute conform trivially. -/
def wfEdgePairs : PyVal → Bool
  | .dict fs =>
      (match pyOr (dictGet fs "lineageDetails") (.dict []) with
       | .dict ls =>
           (match pyOr (dictGet ls "columnsLineage") (.list []) with
            | .list items => items.all wfItemDict
            | _ => false)
       | _ => false)
  | .obj as =>
      (!pyTruthy (pyGetattr (.obj as) "lineageDetails" .none) ||
        (match pyOr (pyGetattr (pyGetattr (.obj as) "lineageDetails" .none)
                       "columnsLineage" .none) (.list []) with
         | .list items =>
             items.all (fun i => fromColsOk (pyGetattr i "fromColumns" .none))
         | _ => false))
  | _ => true

/-- A dict edge carrying the given column-mapping entries, the shape the
catalog returns for a matched edge. -/
def mkEdge (items : List PyVal) : PyVal :=
  .dict [("lineageDetails", .dict [("columnsLineage", .list items)])]

/-- Demo edge used to witness the verifier claims: identity
`src-1 -> tgt-1` with two column mappings. -/
def edgeW : PyVal :=
  .dict [("fromEntity", .str "src-1"), ("toEntity", .str "tgt-1"),
    ("lineageDetails", .dict [("columnsLineage", .list
      [.dict [("fromColumns", .list [.str "a.x"]), ("toColumn", .str "b.x")],
       .dict [("fromColumns", .list [.str "a.y"]), ("toColumn", .str "b.y")]])])]

/-- Edge whose identity does not match `src-1 -> tgt-1`. -/
def edgeN : PyVal := .dict [("fromEntity", .str "other"), ("toEntity", .str "tgt-1")]

/-- First of two edges sharing the identity `src-1 -> tgt-1`. -/
def edgeM1 : PyVal := .dict [("fromEntity", .str "src-1"), ("toEntity", .str "tgt-1")]

/-- Second edge with the same identity but different column data. -/
def edgeM2 : PyVal :=
  .dict [("fromEntity", .str "src-1"), ("toEntity", .str "tgt-1"),
    ("lineageDetails", .dict [("columnsLineage", .list
      [.dict [("fromColumns", .list [.str "a.z"]), ("toColumn", .str "b.z")]])])]

lemma pyOr_list_empty (xs : List PyVal) :
    pyOr (.list xs) (.list []) = .list xs := by
  cases xs <;> rfl

lemma edgeFieldOk_or (v : PyVal) (h : edgeFieldOk v = true) :
    ∃ xs, pyOr v (.list []) = .list xs :=
  match v, h with
  | .none, _ => ⟨[], rfl⟩
  | .list xs, _ => ⟨xs, pyOr_list_empty xs⟩

lemma dictGet_single (k : String) (v : PyVal) : dictGet [(k, v)] k = v := by
  simp [dictGet, List.lookup]

lemma find_first (p : PyVal → Bool) (pre : List PyVal) (e : PyVal) (post : List PyVal)
    (hpre : ∀ x ∈ pre, p x = false) (he : p e = true) :
    (pre ++ e :: post).find? p = some e := by
  induction pre with
  | nil => simp [List.find?, he]
  | cons a as ih =>
      have ha : p a = false := hpre a (by simp)
      simp only [List.cons_append, List.find?, ha]
      exact ih (fun x hx => hpre x (by simp [hx]))

lemma pyIterList_or_ok : ∀ (v : PyVal), fromColsOk v = true →
    ∃ xs, pyIterList (pyOr v (.list [])) = .ok xs
  | .none, _ => ⟨[], rfl⟩
  | .str s, _ => by
      unfold pyOr
      split
      · exact ⟨_, rfl⟩
      · exact ⟨[], rfl⟩
  | .list xs, _ => ⟨xs, by rw [pyOr_list_empty]; rfl⟩
  | .dict fs, _ => by
      unfold pyOr
      split
      · exact ⟨_, rfl⟩
      · exact ⟨[], rfl⟩
  | .obj as, h => nomatch h

lemma itemPairsDict_ok : ∀ (i : PyVal), wfItemDict i = true →
    (itemPairsDict i).isOk = true
  | .dict gs, h => by
      obtain ⟨xs, hxs⟩ :=
        pyIterList_or_ok (dictGet gs "fromColumns") (by simpa [wfItemDict] using h)
      simp [itemPairsDict, hxs, Except.isOk, Except.toBool]
  | .none, h => nomatch h
  | .str s, h => nomatch h
  | .list xs, h => nomatch h
  | .obj as, h => nomatch h

lemma itemPairsObj_ok (i : PyVal)
    (h : fromColsOk (pyGetattr i "fromColumns" .none) = true) :
    (itemPairsObj i).isOk = true := by
  obtain ⟨xs, hxs⟩ := pyIterList_or_ok (pyGetattr i "fromColumns" .none) h
  simp [itemPairsObj, hxs, Except.isOk, Except.toBool]

lemma collectPairs_ok (f : PyVal → Except PyErr (Finset (String × String)))
    (items : List PyVal) (h : ∀ i ∈ items, (f i).isOk = true) :
    (collectPairs f items).isOk = true := by
  induction items with
  | nil => rfl
  | cons a as ih =>
      have ha := h a (by simp)
      have has := ih (fun i hi => h i (by simp [hi]))
      cases hfa : f a with
      | error e => rw [hfa] at ha; exact absurd ha (by simp [Except.isOk, Except.toBool])
      | ok p =>
          cases hr : collectPairs f as with
          | error e => rw [hr] at has; exact absurd has (by simp [Except.isOk, Except.toBool])
          | ok q => simp [collectPairs, hfa, hr, Except.isOk, Except.toBool]

lemma wf_extract_ok : ∀ (e : PyVal), wfEdgePairs e = true → (extractPairs e).isOk = true
  | .none, _ => rfl
  | .str s, _ => rfl
  | .list xs, _ => rfl
  | .dict fs, h => by
      simp only [wfEdgePairs] at h
      cases hld : pyOr (dictGet fs "lineageDetails") (.dict []) with
      | dict ls =>
          simp only [hld] at h
          cases hcl : pyOr (dictGet ls "columnsLineage") (.list []) with
          | list items =>
              simp only [hcl] at h
              have hs := collectPairs_ok itemPairsDict items
                (fun i hi => itemPairsDict_ok i (by
                  rw [List.all_eq_true] at h
                  exact h i hi))
              simp only [extractPairs, hld, hcl, pyIterList]
              exact hs
          | none => simp [hcl] at h
          | str s2 => simp [hcl] at h
          | dict ds => simp [hcl] at h
          | obj os => simp [hcl] at h
      | none => simp [hld] at h
      | str s2 => simp [hld] at h
      | list ys => simp [hld] at h
      | obj os => simp [hld] at h
  | .obj as, h => by
      simp only [wfEdgePairs, Bool.or_eq_true, Bool.not_eq_true'] at h
      rcases h with h | h
      · simp [extractPairs, h, Except.isOk, Except.toBool]
      · by_cases hld : pyTruthy (pyGetattr (.obj as) "lineageDetails" .none) = true
        · cases hcl : pyOr (pyGetattr (pyGetattr (.obj as) "lineageDetails" .none)
              "columnsLineage" .none) (.list []) with
          | list items =>
              simp only [hcl] at h
              have hs := collectPairs_ok itemPairsObj items
                (fun i hi => itemPairsObj_ok i (by
                  rw [List.all_eq_true] at h
                  exact h i hi))
              simp only [extractPairs, hld, if_true, hcl, pyIterList]
              exact hs
          | none => simp [hcl] at h
          | str s2 => simp [hcl] at h
          | dict ds => simp [hcl] at h
          | obj os => simp [hcl] at h
        · rw [Bool.not_eq_true] at hld
          simp [extractPairs, hld, Except.isOk, Except.toBool]

lemma itemPairsDict_empty (gs : List (String × PyVal))
    (hfc : fromColsOk (dictGet gs "fromColumns") = true)
    (h : pyTruthy (dictGet gs "toColumn") = false ∨
         pyTruthy (dictGet gs "fromColumns") = false) :
    itemPairsDict (.dict gs) = .ok ∅ := by
  rcases h with h | h
  · obtain ⟨xs, hxs⟩ := pyIterList_or_ok (dictGet gs "fromColumns") hfc
    simp [itemPairsDict, hxs, h]
  · have hor : pyOr (dictGet gs "fromColumns") (.list []) = .list [] := by
      unfold pyOr; rw [h]; rfl
    simp [itemPairsDict, hor, pyIterList]

lemma collectPairs_drop (f : PyVal → Except PyErr (Finset (String × String)))
    (pre post : List PyVal) (bad : PyVal) (hbad : f bad = .ok ∅) :
    collectPairs f (pre ++ bad :: post) = collectPairs f (pre ++ post) := by
  induction pre with
  | nil =>
      simp only [List.nil_append, collectPairs, hbad]
      cases h : collectPairs f post with
      | error e => rfl
      | ok q => simp
  | cons a as ih =>
      simp only [List.cons_append, collectPairs, List.append_eq]
      rw [ih]

lemma pyOr_truthy (a b : PyVal) (h : pyTruthy a = true) : pyOr a b = a := by
  simp [pyOr, h]

lemma extract_mkEdge (items : List PyVal) :
    extractPairs (mkEdge items) = collectPairs itemPairsDict items := by
  rw [mkEdge]
  simp only [extractPairs, dictGet_single]
  rw [pyOr_truthy _ _ (by rfl)]
  simp only [dictGet_single, pyOr_list_empty, pyIterList]

lemma edgeFieldOk_cases : ∀ (v : PyVal), edgeFieldOk v = true →
    v = PyVal.none ∨ ∃ xs, v = PyVal.list xs
  | .none, _ => Or.inl rfl
  | .list xs, _ => Or.inr ⟨xs, rfl⟩
  | .str _, h => nomatch h
  | .dict _, h => nomatch h
  | .obj _, h => nomatch h

lemma wf_iter_ok : ∀ (g : PyVal), wfGraph g = true →
    ∃ es : List PyVal, iterEdges g = .ok (.list es)
  | .none, _ => ⟨[], rfl⟩
  | .str s, _ => ⟨[], rfl⟩
  | .list xs, _ => ⟨[], rfl⟩
  | .dict fs, h => by
      simp only [wfGraph, Bool.and_eq_true] at h
      obtain ⟨⟨h1, h2⟩, h3⟩ := h
      by_cases hc : (dictContains fs "edges" && !isNone (dictGet fs "edges")) = true
      · simp only [iterEdges]
        rw [if_pos hc]
        rcases edgeFieldOk_cases _ h1 with he | ⟨E, he⟩
        · rw [he] at hc; simp [isNone] at hc
        · rw [he, pyOr_list_empty]; exact ⟨E, rfl⟩
      · simp only [iterEdges]
        rw [if_neg hc]
        obtain ⟨u, hu⟩ := edgeFieldOk_or _ h2
        obtain ⟨d, hd⟩ := edgeFieldOk_or _ h3
        rw [hu, hd]
        exact ⟨u ++ d, rfl⟩
  | .obj as, h => by
      simp only [wfGraph, Bool.and_eq_true] at h
      obtain ⟨⟨h1, h2⟩, h3⟩ := h
      rcases edgeFieldOk_cases _ h1 with he | ⟨E, he⟩
      · obtain ⟨u, hu⟩ := edgeFieldOk_or _ h2
        obtain ⟨d, hd⟩ := edgeFieldOk_or _ h3
        simp only [iterEdges, he, hu, hd, pyIterList]
        exact ⟨u ++ d, rfl⟩
      · simp only [iterEdges, he]
        exact ⟨E, rfl⟩

/-- Claim C1: for every lineage graph whose normalized edge sequence has a
first matching edge for the requested `(source-id, target-id)`, if that
edge's extracted column-pair set contains every expected pair (including a
strict superset), `verify_lineage` succeeds, reporting the extra pairs only
as informational diagnostics; extra pairs never cause failure. -/
theorem claim_c1 (g : PyVal) (es : List PyVal) (sid tid : String)
    (expected actual : Finset (String × String)) (e : PyVal)
    (hnorm : normalizedEdges g = .ok es)
    (hfind : es.find? (edgeMatches sid tid) = some e)
    (hext : extractPairs e = .ok actual)
    (hsub : expected ⊆ actual) :
    verifyLineage sid tid g expected = .ok ⟨∅, actual \ expected⟩ := by
  have hmiss : expected \ actual = ∅ := Finset.sdiff_eq_empty_iff_subset.mpr hsub
  simp [verifyLineage, hnorm, hfind, checkEdge, hext, hmiss]

/-- Witness for C1: a strict superset of the expected pairs verifies. -/
theorem claim_c1_witness :
    verifyLineage "src-1" "tgt-1" (PyVal.dict [("edges", PyVal.list [edgeW])])
        {("a.x", "b.x")}
      = .ok ⟨∅, {("a.x", "b.x"), ("a.y", "b.y")} \ {("a.x", "b.x")}⟩ :=
  claim_c1 (PyVal.dict [("edges", PyVal.list [edgeW])]) [edgeW] "src-1" "tgt-1"
    {("a.x", "b.x")} {("a.x", "b.x"), ("a.y", "b.y")} edgeW rfl rfl (by decide) (by decide)

/-- Claim C2: when no edge of the normalized edge sequence matches the
requested `(source-id, target-id)`, `verify_lineage` fails with the
edge-not-found condition, regardless of any column-mapping data or the
expected set; and among several matching edges, the outcome is decided by
the first match in normalized order. -/
theorem claim_c2 (g : PyVal) (es : List PyVal) (sid tid : String)
    (expected : Finset (String × String))
    (hnorm : normalizedEdges g = .ok es) :
    ((∀ e ∈ es, edgeMatches sid tid e = false) →
      verifyLineage sid tid g expected = .error .edgeNotFound) ∧
    (∀ (pre : List PyVal) (e : PyVal) (post : List PyVal),
      es = pre ++ e :: post →
      (∀ x ∈ pre, edgeMatches sid tid x = false) →
      edgeMatches sid tid e = true →
      verifyLineage sid tid g expected = checkEdge e expected) := by
  constructor
  · intro hall
    have hfind : es.find? (edgeMatches sid tid) = Option.none :=
      List.find?_eq_none.mpr (fun x hx => by simp [hall x hx])
    simp [verifyLineage, hnorm, hfind]
  · intro pre e post hes hpre he
    subst hes
    have hfind := find_first (edgeMatches sid tid) pre e post hpre he
    simp [verifyLineage, hnorm, hfind]

/-- Witness for C2: a non-matching graph fails, and with two matching
edges the first decides. -/
theorem claim_c2_witness :
    verifyLineage "src-1" "tgt-1" (PyVal.dict [("edges", PyVal.list [edgeN])]) ∅
      = .error .edgeNotFound ∧
    verifyLineage "src-1" "tgt-1" (PyVal.dict [("edges", PyVal.list [edgeM1, edgeM2])]) ∅
      = checkEdge edgeM1 ∅ :=
  ⟨(claim_c2 (PyVal.dict [("edges", PyVal.list [edgeN])]) [edgeN] "src-1" "tgt-1" ∅ rfl).1
     (by decide),
   (claim_c2 (PyVal.dict [("edges", PyVal.list [edgeM1, edgeM2])]) [edgeM1, edgeM2]
       "src-1" "tgt-1" ∅ rfl).2
     [] edgeM1 [edgeM2] rfl (by decide) (by decide)⟩

/-- Claim C3: on the matched edge `verify_lineage` computes
`missing = expected - actual` and `extra = actual - expected` as set
differences over the extracted column pairs and fails with the
lineage-incomplete condition exactly when `missing` is non-empty. -/
theorem claim_c3 (g : PyVal) (es : List PyVal) (sid tid : String)
    (expected actual : Finset (String × String)) (e : PyVal)
    (hnorm : normalizedEdges g = .ok es)
    (hfind : es.find? (edgeMatches sid tid) = some e)
    (hext : extractPairs e = .ok actual) :
    verifyLineage sid tid g expected =
      (if expected \ actual = ∅ then .ok ⟨expected \ actual, actual \ expected⟩
       else .error (.lineageIncomplete ⟨expected \ actual, actual \ expected⟩)) := by
  simp [verifyLineage, hnorm, hfind, checkEdge, hext]

/-- Witness for C3: the spec's missing-detection scenario, extended by a
third expected pair. -/
theorem claim_c3_witness :
    verifyLineage "src-1" "tgt-1" (PyVal.dict [("edges", PyVal.list [edgeW])])
        {("a.x", "b.x"), ("a.y", "b.y"), ("a.q", "b.q")}
      = .error (.lineageIncomplete ⟨{("a.q", "b.q")}, ∅⟩) := by
  rw [claim_c3 (PyVal.dict [("edges", PyVal.list [edgeW])]) [edgeW] "src-1" "tgt-1"
    {("a.x", "b.x"), ("a.y", "b.y"), ("a.q", "b.q")} {("a.x", "b.x"), ("a.y", "b.y")}
    edgeW rfl rfl (by decide)]
  decide

/-- Claim C4: a graph carrying an `edges` list and a graph splitting the
same list across `upstreamEdges`/`downstreamEdges` normalize to the same
edge sequence; a present non-null `edges` field is preferred even when the
split fields are also present, otherwise upstream edges are concatenated
before downstream edges. -/
theorem claim_c4 (E1 E2 : List PyVal) :
    iterEdges (.dict [("edges", .list (E1 ++ E2))]) = .ok (.list (E1 ++ E2)) ∧
    iterEdges (.dict [("upstreamEdges", .list E1), ("downstreamEdges", .list E2)])
      = .ok (.list (E1 ++ E2)) ∧
    (∀ E : List PyVal,
      iterEdges (.dict [("edges", .list E), ("upstreamEdges", .list E1),
        ("downstreamEdges", .list E2)]) = .ok (.list E)) ∧
    iterEdges (.dict [("edges", PyVal.none), ("upstreamEdges", .list E1),
        ("downstreamEdges", .list E2)]) = .ok (.list (E1 ++ E2)) := by
  refine ⟨?_, ?_, fun E => ?_, ?_⟩ <;>
    simp [iterEdges, dictContains, dictGet, List.lookup, isNone, pyOr_list_empty, pyAdd]

/-- Claim C5 (amended): `_iter_edges` returns a (possibly empty) edge list
and never raises on `None` and on every dict or object whose
`edges`/`upstreamEdges`/`downstreamEdges` fields are each absent, null or
lists; absent or null fields degrade to empty lists.  (The unrestricted
claim fails: a truthy non-sequence field value makes the concatenation
raise, see the counterexample.) -/
theorem claim_c5 :
    (∀ g : PyVal, wfGraph g = true → ∃ es : List PyVal, iterEdges g = .ok (.list es)) ∧
    (∀ fs : List (String × PyVal),
      dictGet fs "edges" = PyVal.none → dictGet fs "upstreamEdges" = PyVal.none →
      dictGet fs "downstreamEdges" = PyVal.none →
      iterEdges (.dict fs) = .ok (.list [])) ∧
    (∀ as : List (String × PyVal),
      pyGetattr (.obj as) "edges" PyVal.none = PyVal.none →
      pyGetattr (.obj as) "upstreamEdges" PyVal.none = PyVal.none →
      pyGetattr (.obj as) "downstreamEdges" PyVal.none = PyVal.none →
      iterEdges (.obj as) = .ok (.list [])) ∧
    iterEdges PyVal.none = .ok (.list []) := by
  refine ⟨wf_iter_ok, fun fs h1 h2 h3 => ?_, fun as h1 h2 h3 => ?_, rfl⟩
  · simp only [iterEdges]
    rw [if_neg (by rw [h1]; simp [isNone]), h2, h3]
    rfl
  · simp only [iterEdges, h1, h2, h3]
    rfl

/-- Claim C5 counterexample: a dict graph whose `upstreamEdges` holds a
non-empty dict makes `_iter_edges` raise `TypeError` (Python
`dict + list`), so it does not return an edge sequence for every input. -/
theorem claim_c5_counterexample :
    iterEdges (.dict [("upstreamEdges", .dict [("demo", .str "v")])]) = .error .typeError := rfl

/-- Witness for the amended C5 at concrete conforming graphs. -/
theorem claim_c5_witness :
    (∃ es : List PyVal, iterEdges (PyVal.obj [("edges", PyVal.list [PyVal.none])])
        = .ok (.list es)) ∧
    iterEdges (PyVal.dict [("edges", PyVal.none)]) = .ok (.list []) ∧
    iterEdges (PyVal.obj []) = .ok (.list []) :=
  ⟨claim_c5.1 (PyVal.obj [("edges", PyVal.list [PyVal.none])]) (by decide),
   claim_c5.2.1 [("edges", PyVal.none)] rfl rfl rfl,
   claim_c5.2.2.1 [] rfl rfl rfl⟩

/-- Claim C6: an edge carrying flat identifier strings and its
nested-object equivalent extract the same `(source-id, target-id)` pair,
namely the identifier strings themselves. -/
theorem claim_c6 (f t : String) :
    edgeFromToIds (.dict [("fromEntity", .str f), ("toEntity", .str t)]) = (f, t) ∧
    edgeFromToIds (.dict [("fromEntity", .dict [("id", .str f)]),
      ("toEntity", .dict [("id", .str t)])]) = (f, t) :=
  ⟨rfl, rfl⟩

/-- Claim C7: a column mapping with two distinct non-empty source columns
and one non-empty target column expands to exactly two pairs in the
extracted set. -/
theorem claim_c7 (s1 s2 t : String) (h12 : s1 ≠ s2) (h1 : s1 ≠ "") (h2 : s2 ≠ "")
    (ht : t ≠ "") :
    extractPairs (.dict [("lineageDetails", .dict [("columnsLineage",
        .list [.dict [("fromColumns", .list [.str s1, .str s2]),
                      ("toColumn", .str t)]])])])
      = .ok {(s1, t), (s2, t)} ∧
    ({(s1, t), (s2, t)} : Finset (String × String)).card = 2 := by
  constructor
  · simp [extractPairs, collectPairs, itemPairsDict, dictGet, List.lookup, pyOr,
      pyTruthy, pyIterList, pyStr, h1, h2, ht]
  · rw [Finset.card_insert_of_not_mem (by simp [h12]), Finset.card_singleton]

/-- Witness for C7 at concrete column names. -/
theorem claim_c7_witness :
    extractPairs (.dict [("lineageDetails", .dict [("columnsLineage",
        .list [.dict [("fromColumns", .list [.str "a", .str "b"]),
                      ("toColumn", .str "c")]])])])
      = .ok {("a", "c"), ("b", "c")} ∧
    ({("a", "c"), ("b", "c")} : Finset (String × String)).card = 2 :=
  claim_c7 "a" "b" "c" (by decide) (by decide) (by decide) (by decide)

/-- Claim C8 (amended): on every edge conforming to the lineage data model
(including edges with no lineage detail at all) `_extract_columns_lineage_pairs`
returns a set (deduplicated by construction) and never raises, and a
column-mapping entry whose target column or source-column list is missing
or falsy contributes nothing: removing it from the edge leaves the result
unchanged.  On non-conforming edges extraction can raise
(see the counterexample). -/
theorem claim_c8 :
    (∀ e : PyVal, wfEdgePairs e = true → (extractPairs e).isOk = true) ∧
    (∀ (pre post : List PyVal) (gs : List (String × PyVal)),
      fromColsOk (dictGet gs "fromColumns") = true →
      (pyTruthy (dictGet gs "toColumn") = false ∨
       pyTruthy (dictGet gs "fromColumns") = false) →
      extractPairs (mkEdge (pre ++ PyVal.dict gs :: post))
        = extractPairs (mkEdge (pre ++ post))) := by
  refine ⟨wf_extract_ok, fun pre post gs hfc h => ?_⟩
  rw [extract_mkEdge, extract_mkEdge,
    collectPairs_drop itemPairsDict pre post (PyVal.dict gs) (itemPairsDict_empty gs hfc h)]

/-- Claim C8 counterexample: an edge whose `lineageDetails` is a non-empty
string makes `_extract_columns_lineage_pairs` raise `AttributeError`
(`"x".get(...)`), so the function does not return a set for every edge. -/
theorem claim_c8_counterexample :
    extractPairs (.dict [("lineageDetails", .str "x")]) = .error .attributeError := rfl

/-- Witness for the amended C8: extraction succeeds on a mapping with a
missing source list, and a target-less mapping is dropped silently. -/
theorem claim_c8_witness :
    (extractPairs (mkEdge [PyVal.dict [("toColumn", PyVal.str "b.x")]])).isOk = true ∧
    extractPairs (mkEdge ([PyVal.dict [("fromColumns", PyVal.list [PyVal.str "a.x"]),
        ("toColumn", PyVal.str "b.x")]] ++
        PyVal.dict [("fromColumns", PyVal.list [PyVal.str "a.y"])] :: []))
      = extractPairs (mkEdge ([PyVal.dict [("fromColumns", PyVal.list [PyVal.str "a.x"]),
        ("toColumn", PyVal.str "b.x")]] ++ [])) :=
  ⟨claim_c8.1 (mkEdge [PyVal.dict [("toColumn", PyVal.str "b.x")]]) (by decide),
   claim_c8.2 [PyVal.dict [("fromColumns", PyVal.list [PyVal.str "a.x"]),
        ("toColumn", PyVal.str "b.x")]] [] [("fromColumns", PyVal.list [PyVal.str "a.y"])]
     (by decide) (Or.inl (by decide))⟩

/-- Claim C9: `read_pat_token` errors exactly when the token file does not
exist or its stripped content is empty, and returns the stripped token
otherwise; in `main` these failures produce exit code 1 before any catalog
interaction is attempted. -/
theorem claim_c9 (catalog : String → Nat × List String) :
    (readPatToken Option.none = .error .fileNotFound ∧
      mainModel Option.none catalog = (1, [])) ∧
    (∀ c : String, pyStrip c = "" →
      readPatToken (Option.some c) = .error .emptyToken ∧
      mainModel (Option.some c) catalog = (1, [])) ∧
    (∀ c : String, pyStrip c ≠ "" →
      readPatToken (Option.some c) = .ok (pyStrip c) ∧
      mainModel (Option.some c) catalog = catalog (pyStrip c)) := by
  refine ⟨⟨rfl, rfl⟩, fun c hc => ?_, fun c hc => ?_⟩ <;>
    simp [readPatToken, mainModel, hc]

/-- Witness for C9 at a blank and a non-blank token file. -/
theorem claim_c9_witness :
    (readPatToken (Option.some " \n ") = .error .emptyToken ∧
      mainModel (Option.some " \n ") (fun t => (0, ["connect", t])) = (1, [])) ∧
    (readPatToken (Option.some " tok \n") = .ok (pyStrip " tok \n") ∧
      mainModel (Option.some " tok \n") (fun t => (0, ["connect", t]))
        = (0, ["connect", pyStrip " tok \n"])) :=
  ⟨(claim_c9 (fun t => (0, ["connect", t]))).2.1 " \n " (by decide),
   (claim_c9 (fun t => (0, ["connect", t]))).2.2 " tok \n" (by decide)⟩

/-- Claim C10 (implicit): an edge whose `fromEntity` or `toEntity` is
absent — a missing dict key, or a nested reference dict lacking an `id`
key — extracts the literal string "None" (Python `str(None)`) on that
side, not the empty string, so it matches a requested identity only when
the requested identifier is itself "None". -/
theorem claim_c10 (fs : List (String × PyVal)) (sid tid : String) :
    (fs.lookup "fromEntity" = Option.none → (edgeFromToIds (.dict fs)).1 = "None") ∧
    (∀ gs, fs.lookup "fromEntity" = Option.some (.dict gs) →
      gs.lookup "id" = Option.none → (edgeFromToIds (.dict fs)).1 = "None") ∧
    (fs.lookup "toEntity" = Option.none → (edgeFromToIds (.dict fs)).2 = "None") ∧
    (∀ gs, fs.lookup "toEntity" = Option.some (.dict gs) →
      gs.lookup "id" = Option.none → (edgeFromToIds (.dict fs)).2 = "None") ∧
    (fs.lookup "fromEntity" = Option.none →
      edgeMatches sid tid (.dict fs) = true → sid = "None") := by
  refine ⟨fun h => ?_, fun gs h hg => ?_, fun h => ?_, fun gs h hg => ?_, fun h hm => ?_⟩
  · simp [edgeFromToIds, dictGet, h, pyStr, pyRepr]
  · simp [edgeFromToIds, dictGet, h, hg, pyStr, pyRepr]
  · simp [edgeFromToIds, dictGet, h, pyStr, pyRepr]
  · simp [edgeFromToIds, dictGet, h, hg, pyStr, pyRepr]
  · have h1 : (edgeFromToIds (.dict fs)).1 = "None" := by
      simp [edgeFromToIds, dictGet, h, pyStr, pyRepr]
    simp [edgeMatches] at hm
    rw [← hm.1, h1]

/-- Witness for C10 at edges with a missing or id-less `fromEntity`. -/
theorem claim_c10_witness :
    (edgeFromToIds (PyVal.dict [("toEntity", PyVal.str "t")])).1 = "None" ∧
    (edgeFromToIds (PyVal.dict [("fromEntity", PyVal.dict [("type", PyVal.str "table")]),
        ("toEntity", PyVal.str "t")])).1 = "None" ∧
    ("None" : String) = "None" :=
  ⟨(claim_c10 [("toEntity", PyVal.str "t")] "x" "y").1 rfl,
   (claim_c10 [("fromEntity", PyVal.dict [("type", PyVal.str "table")]),
       ("toEntity", PyVal.str "t")] "x" "y").2.1 [("type", PyVal.str "table")] rfl rfl,
   (claim_c10 [("toEntity", PyVal.str "t")] "None" "t").2.2.2.2 rfl (by decide)⟩
